import Mathlib

/-!
# The entry point of `examples/rust_std`

A verification development for `src/examples/rust_std/main.c`:

    int rust_main(int argc, char *argv[]);

    int main(int argc, char *argv[]) {
      int ret = rust_main(argc, argv);

      printf("Done!\n");
      return ret;
    }

`main` is embedded as a state-passing computation.  The two routines it calls
are external to the file (`rust_main` is only declared there, `printf` comes
from `<stdio.h>`), so their behaviour is supplied by an environment, and every
theorem is stated for all environments.  The state records the bytes written
to the standard output stream and the sequence of calls made.
-/

namespace RustStd

/-- The argument vector `char *argv[]`, seen as the sequence of its tokens. -/
abbrev Argv := List String

/-- The calls made during a run, in the order in which they are made. -/
inductive Event where
  /-- Control is transferred to `rust_main` with these two arguments. -/
  | call (argc : Int) (argv : Argv)
  /-- A call of `printf` that writes these bytes, and the value it returned. -/
  | write (bytes : List Char) (result : Int)
  deriving DecidableEq, Repr

/-- The observable state of the process. -/
structure State where
  /-- The bytes the program has written to the standard output stream so far,
  oldest first.  Whether the device behind the stream took them is what the
  value returned by the write reports; it is not part of the state. -/
  stdout : List Char
  /-- The calls made so far, oldest first. -/
  trace : List Event
  deriving DecidableEq, Repr

/-- What one call of the foreign routine does: it writes `out` to the standard
output stream and then either returns a status or stops without returning
(it aborts or faults). -/
inductive Foreign where
  | returned (status : Int) (out : List Char)
  | stopped (out : List Char)
  deriving DecidableEq, Repr

/-- The behaviour of the two external routines. -/
structure Env where
  /-- The routine declared as `int rust_main(int argc, char *argv[])`. -/
  rust_main : Int → Argv → Foreign
  /-- The value `printf` returns when the stream already holds the bytes of the
  first argument and the format is the second: the number of bytes on
  success, a negative value when the stream reports an output error. -/
  printf_ret : List Char → String → Int

/-- The outcome of running a piece of code. -/
inductive Result (α : Type) where
  /-- Control came back with a value. -/
  | done (val : α) (s : State)
  /-- Control never came back. -/
  | abort (s : State)

/-- A computation: it runs in an environment, from a state. -/
def Exec (α : Type) : Type := Env → State → Result α

/-- Sequencing of statements: the second runs only if the first comes back. -/
def Exec.bind {α β : Type} (m : Exec α) (f : α → Exec β) : Exec β :=
  fun E s =>
    match m E s with
    | Result.done a s1 => f a E s1
    | Result.abort s1 => Result.abort s1

/-- The statement `return a`. -/
def Exec.pure {α : Type} (a : α) : Exec α :=
  fun _ s => Result.done a s

instance : Monad Exec where
  pure := Exec.pure
  bind := Exec.bind

/-- The call `rust_main(argc, argv)`. -/
def rust_main (argc : Int) (argv : Argv) : Exec Int :=
  fun E s =>
    let s1 : State := { s with trace := s.trace ++ [Event.call argc argv] }
    match E.rust_main argc argv with
    | Foreign.returned status out =>
        Result.done status { s1 with stdout := s1.stdout ++ out }
    | Foreign.stopped out =>
        Result.abort { s1 with stdout := s1.stdout ++ out }

/-- The call `printf(fmt)` for a format without conversion specifications: the
characters of the format are written to the standard output stream as they
are, and the call comes back with the value the environment gives it (the
byte count, or a negative value for an output error). -/
def printf (fmt : String) : Exec Int :=
  fun E s =>
    let r := E.printf_ret s.stdout fmt
    Result.done r
      { stdout := s.stdout ++ fmt.toList,
        trace := s.trace ++ [Event.write fmt.toList r] }

/-- The C entry point `int main(int argc, char *argv[])`.  Values of the C type
`int` are integers; `main` only copies the status (from the call into `ret`,
from `ret` into the return value), both times from `int` to `int`, so no
conversion or arithmetic is applied to it. -/
def main (argc : Int) (argv : Argv) : Exec Int := do
  let ret ← rust_main argc argv
  let _ ← printf "Done!\n"
  return ret

/-- The state in which a run ended. -/
def Result.final {α : Type} : Result α → State
  | Result.done _ s => s
  | Result.abort s => s

/-- The value a run returned, if control came back. -/
def Result.status {α : Type} : Result α → Option α
  | Result.done a _ => some a
  | Result.abort _ => none

/-- The events a run added to the trace of the state `s` it started from. -/
def events {α : Type} (r : Result α) (s : State) : List Event :=
  r.final.trace.drop s.trace.length

/-- The bytes a run added to the standard output of the state `s` it started
from. -/
def output {α : Type} (r : Result α) (s : State) : List Char :=
  r.final.stdout.drop s.stdout.length

/-- The argument pairs handed to `rust_main`, in order. -/
def calls : List Event → List (Int × Argv)
  | [] => []
  | Event.call argc argv :: es => (argc, argv) :: calls es
  | Event.write _ _ :: es => calls es

/-- The byte strings written by `main` through `printf`, in order. -/
def writes : List Event → List (List Char)
  | [] => []
  | Event.call _ _ :: es => writes es
  | Event.write bytes _ :: es => bytes :: writes es

/-- The completion notice: the six bytes of `"Done!\n"`. -/
def notice : List Char := ['D', 'o', 'n', 'e', '!', '\n']

/-- An environment in which the foreign routine writes `out` and returns
`status`, and `printf` returns `r`. -/
def envReturning (status : Int) (out : List Char) (r : Int) : Env :=
  { rust_main := fun _ _ => Foreign.returned status out,
    printf_ret := fun _ _ => r }

/-- An environment in which the foreign routine writes `out` and never
returns. -/
def envStopping (out : List Char) : Env :=
  { rust_main := fun _ _ => Foreign.stopped out,
    printf_ret := fun _ _ => 6 }

/-- The state of a process that has written nothing and called nothing. -/
def State.init : State := { stdout := [], trace := [] }

/-! ## What a run of `main` is -/

/-- A run of `main` in which the foreign routine returns. -/
theorem main_of_returned (E : Env) (argc : Int) (argv : Argv) (s : State)
    (status : Int) (out : List Char)
    (h : E.rust_main argc argv = Foreign.returned status out) :
    main argc argv E s =
      Result.done status
        { stdout := s.stdout ++ out ++ notice,
          trace := s.trace ++
            [Event.call argc argv,
             Event.write notice (E.printf_ret (s.stdout ++ out) "Done!\n")] } := by
  simp [main, bind, Exec.bind, pure, Exec.pure, rust_main, printf, h, notice]

/-- A run of `main` in which the foreign routine does not return. -/
theorem main_of_stopped (E : Env) (argc : Int) (argv : Argv) (s : State)
    (out : List Char)
    (h : E.rust_main argc argv = Foreign.stopped out) :
    main argc argv E s =
      Result.abort
        { stdout := s.stdout ++ out,
          trace := s.trace ++ [Event.call argc argv] } := by
  simp [main, bind, Exec.bind, rust_main, h]

/-- The events added by a run of `main` in which the foreign routine
returns. -/
theorem events_of_returned (E : Env) (argc : Int) (argv : Argv) (s : State)
    (status : Int) (out : List Char)
    (h : E.rust_main argc argv = Foreign.returned status out) :
    events (main argc argv E s) s =
      [Event.call argc argv,
       Event.write notice (E.printf_ret (s.stdout ++ out) "Done!\n")] := by
  simp [main_of_returned E argc argv s status out h, events, Result.final]

/-- The events added by a run of `main` in which the foreign routine does not
return. -/
theorem events_of_stopped (E : Env) (argc : Int) (argv : Argv) (s : State)
    (out : List Char)
    (h : E.rust_main argc argv = Foreign.stopped out) :
    events (main argc argv E s) s = [Event.call argc argv] := by
  simp [main_of_stopped E argc argv s out h, events, Result.final]

/-- The bytes added to the standard output by a run of `main` in which the
foreign routine returns. -/
theorem output_of_returned (E : Env) (argc : Int) (argv : Argv) (s : State)
    (status : Int) (out : List Char)
    (h : E.rust_main argc argv = Foreign.returned status out) :
    output (main argc argv E s) s = out ++ notice := by
  simp [main_of_returned E argc argv s status out h, output, Result.final]

/-- The bytes added to the standard output by a run of `main` in which the
foreign routine does not return. -/
theorem output_of_stopped (E : Env) (argc : Int) (argv : Argv) (s : State)
    (out : List Char)
    (h : E.rust_main argc argv = Foreign.stopped out) :
    output (main argc argv E s) s = out := by
  simp [main_of_stopped E argc argv s out h, output, Result.final]

/-- Every run of `main` hands exactly the pair it received to `rust_main`,
once. -/
theorem calls_of_main (E : Env) (argc : Int) (argv : Argv) (s : State) :
    calls (events (main argc argv E s) s) = [(argc, argv)] := by
  cases h : E.rust_main argc argv with
  | returned status out => simp [events_of_returned E argc argv s status out h, calls]
  | stopped out => simp [events_of_stopped E argc argv s out h, calls]

/-! ## The claims -/

/-- C1: when `rust_main(argc, argv)` returns the status `S`, `main(argc, argv)`
returns exactly `S`, whatever `S` is (zero, positive or negative): the value
is not remapped, truncated or changed in sign. -/
theorem main_returns_foreign_status (E : Env) (argc : Int) (argv : Argv)
    (s : State) (S : Int) (out : List Char)
    (h : E.rust_main argc argv = Foreign.returned S out) :
    (main argc argv E s).status = some S := by
  simp [main_of_returned E argc argv s S out h, Result.status]

/-- C1 at the smallest `int`: a foreign routine that returns `-2147483648`
makes `main` return `-2147483648`. -/
theorem main_returns_foreign_status_witness :
    (main 1 ["prog"] (envReturning (-2147483648) [] 6) State.init).status
      = some (-2147483648) :=
  main_returns_foreign_status (envReturning (-2147483648) [] 6) 1 ["prog"]
    State.init (-2147483648) [] rfl

/-- C2: for a valid argument vector (`argc` is not negative and `argv` holds at
least `argc` tokens) the call of `rust_main` is the first thing `main` does,
the one pair it forwards has the count `argc` and a vector with as many tokens
as `argv`, its first `argc` tokens are the first `argc` tokens of `argv` in the
same order, and at every index below `argc` the forwarded token is the token
`main` received there. -/
theorem main_forwards_arguments (E : Env) (argc : Int) (argv : Argv)
    (s : State) (h0 : 0 ≤ argc) (hlen : argc ≤ (argv.length : Int)) :
    (events (main argc argv E s) s).head? = some (Event.call argc argv) ∧
    ∃ (fargc : Int) (fargv : Argv),
      calls (events (main argc argv E s) s) = [(fargc, fargv)] ∧
      fargc = argc ∧
      fargv.length = argv.length ∧
      ((fargv.take argc.toNat).length : Int) = argc ∧
      fargv.take argc.toNat = argv.take argc.toNat ∧
      ∀ i : Nat, (i : Int) < argc →
        ∃ tok : String, argv[i]? = some tok ∧ fargv[i]? = some tok := by
  refine ⟨?_, argc, argv, calls_of_main E argc argv s, rfl, rfl, ?_, rfl, ?_⟩
  · cases h : E.rust_main argc argv with
    | returned status out => simp [events_of_returned E argc argv s status out h]
    | stopped out => simp [events_of_stopped E argc argv s out h]
  · rw [List.length_take]
    omega
  · intro i hi
    have hlt : i < argv.length := by omega
    exact ⟨argv[i], by simp [List.getElem?_eq_getElem hlt], by simp [List.getElem?_eq_getElem hlt]⟩

/-- C2 at `argc = 3`, `argv = ["prog", "a", "b"]`. -/
theorem main_forwards_arguments_witness :
    (events (main 3 ["prog", "a", "b"] (envReturning 0 [] 6) State.init)
        State.init).head? = some (Event.call 3 ["prog", "a", "b"]) ∧
    ∃ (fargc : Int) (fargv : Argv),
      calls (events (main 3 ["prog", "a", "b"] (envReturning 0 [] 6) State.init)
        State.init) = [(fargc, fargv)] ∧
      fargc = 3 ∧
      fargv.length = ["prog", "a", "b"].length ∧
      ((fargv.take (3 : Int).toNat).length : Int) = 3 ∧
      fargv.take (3 : Int).toNat = ["prog", "a", "b"].take (3 : Int).toNat ∧
      ∀ i : Nat, (i : Int) < 3 →
        ∃ tok : String, ["prog", "a", "b"][i]? = some tok ∧ fargv[i]? = some tok :=
  main_forwards_arguments (envReturning 0 [] 6) 3 ["prog", "a", "b"] State.init
    (by decide) (by decide)

/-- C3: in a run of `main` in which the foreign routine returns, the bytes added
to the standard output are the bytes the foreign routine wrote followed by the
six bytes of `"Done!\n"`.  `main` makes one write, of the notice, and makes it
after the call of the foreign routine: the calls of the run are the foreign
call and then that write, with nothing before, between or after them. -/
theorem main_output_is_foreign_output_then_notice (E : Env) (argc : Int)
    (argv : Argv) (s : State) (S : Int) (out : List Char)
    (h : E.rust_main argc argv = Foreign.returned S out) :
    output (main argc argv E s) s = out ++ notice ∧
    (main argc argv E s).final.stdout = s.stdout ++ out ++ notice ∧
    notice = "Done!\n".toList ∧
    notice.length = 6 ∧
    writes (events (main argc argv E s) s) = [notice] ∧
    (∃ r : Int, events (main argc argv E s) s =
      [Event.call argc argv, Event.write notice r]) ∧
    (main argc argv E s).status = some S := by
  refine ⟨output_of_returned E argc argv s S out h, ?_, by decide, by decide, ?_,
    ⟨_, events_of_returned E argc argv s S out h⟩, ?_⟩
  · simp [main_of_returned E argc argv s S out h, Result.final]
  · simp [events_of_returned E argc argv s S out h, writes]
  · simp [main_of_returned E argc argv s S out h, Result.status]

/-- C3 at `argc = 1`, `argv = ["prog"]` with a foreign routine that writes
nothing and returns `0`: the standard output is `"Done!\n"` and the status
is `0`. -/
theorem main_output_is_foreign_output_then_notice_witness :
    output (main 1 ["prog"] (envReturning 0 [] 6) State.init) State.init
      = [] ++ notice ∧
    (main 1 ["prog"] (envReturning 0 [] 6) State.init).final.stdout
      = State.init.stdout ++ [] ++ notice ∧
    notice = "Done!\n".toList ∧
    notice.length = 6 ∧
    writes (events (main 1 ["prog"] (envReturning 0 [] 6) State.init) State.init)
      = [notice] ∧
    (∃ r : Int, events (main 1 ["prog"] (envReturning 0 [] 6) State.init) State.init =
      [Event.call 1 ["prog"], Event.write notice r]) ∧
    (main 1 ["prog"] (envReturning 0 [] 6) State.init).status = some 0 :=
  main_output_is_foreign_output_then_notice (envReturning 0 [] 6) 1 ["prog"]
    State.init 0 [] rfl

/-- C4: when the foreign routine returns a status `S` other than zero, `main`
still writes the notice once and returns `S`; and the bytes `main` itself
writes are the ones it writes in any other run in which the foreign routine
returns, whatever the status of that run (zero included). -/
theorem main_notice_for_nonzero_status (E : Env) (argc : Int) (argv : Argv)
    (s : State) (S : Int) (out : List Char)
    (h : E.rust_main argc argv = Foreign.returned S out) (hS : S ≠ 0) :
    (main argc argv E s).status = some S ∧
    (main argc argv E s).status ≠ some 0 ∧
    writes (events (main argc argv E s) s) = [notice] ∧
    ∀ (E0 : Env) (S0 : Int) (out0 : List Char),
      E0.rust_main argc argv = Foreign.returned S0 out0 →
      writes (events (main argc argv E0 s) s)
        = writes (events (main argc argv E s) s) := by
  have hst : (main argc argv E s).status = some S := by
    simp [main_of_returned E argc argv s S out h, Result.status]
  refine ⟨hst, ?_, ?_, ?_⟩
  · rw [hst]
    intro hc
    exact hS (Option.some.inj hc)
  · simp [events_of_returned E argc argv s S out h, writes]
  · intro E0 S0 out0 h0
    simp [events_of_returned E argc argv s S out h,
      events_of_returned E0 argc argv s S0 out0 h0, writes]

/-- C4 at `argc = 3`, `argv = ["prog", "a", "b"]` with a foreign routine that
returns `2`: the status is `2` and the notice is written. -/
theorem main_notice_for_nonzero_status_witness :
    (main 3 ["prog", "a", "b"] (envReturning 2 [] 6) State.init).status = some 2 ∧
    (main 3 ["prog", "a", "b"] (envReturning 2 [] 6) State.init).status ≠ some 0 ∧
    writes (events (main 3 ["prog", "a", "b"] (envReturning 2 [] 6) State.init)
      State.init) = [notice] ∧
    ∀ (E0 : Env) (S0 : Int) (out0 : List Char),
      E0.rust_main 3 ["prog", "a", "b"] = Foreign.returned S0 out0 →
      writes (events (main 3 ["prog", "a", "b"] E0 State.init) State.init)
        = writes (events (main 3 ["prog", "a", "b"] (envReturning 2 [] 6) State.init)
            State.init) :=
  main_notice_for_nonzero_status (envReturning 2 [] 6) 3 ["prog", "a", "b"]
    State.init 2 [] rfl (by decide)

/-- C5: when the foreign routine does not return, `main` yields no status and
never writes the notice: the bytes added to the standard output are only the
ones the foreign routine wrote before it stopped, and the foreign call is the
only call of the run (nothing is done to recover). -/
theorem main_stops_with_foreign_routine (E : Env) (argc : Int) (argv : Argv)
    (s : State) (out : List Char)
    (h : E.rust_main argc argv = Foreign.stopped out) :
    (main argc argv E s).status = none ∧
    writes (events (main argc argv E s) s) = [] ∧
    output (main argc argv E s) s = out ∧
    (main argc argv E s).final.stdout = s.stdout ++ out ∧
    events (main argc argv E s) s = [Event.call argc argv] := by
  refine ⟨?_, ?_, output_of_stopped E argc argv s out h, ?_,
    events_of_stopped E argc argv s out h⟩
  · simp [main_of_stopped E argc argv s out h, Result.status]
  · simp [events_of_stopped E argc argv s out h, writes]
  · simp [main_of_stopped E argc argv s out h, Result.final]

/-- C5 with a foreign routine that writes `"ab"` and then stops. -/
theorem main_stops_with_foreign_routine_witness :
    (main 1 ["prog"] (envStopping ['a', 'b']) State.init).status = none ∧
    writes (events (main 1 ["prog"] (envStopping ['a', 'b']) State.init)
      State.init) = [] ∧
    output (main 1 ["prog"] (envStopping ['a', 'b']) State.init) State.init
      = ['a', 'b'] ∧
    (main 1 ["prog"] (envStopping ['a', 'b']) State.init).final.stdout
      = State.init.stdout ++ ['a', 'b'] ∧
    events (main 1 ["prog"] (envStopping ['a', 'b']) State.init) State.init
      = [Event.call 1 ["prog"]] :=
  main_stops_with_foreign_routine (envStopping ['a', 'b']) 1 ["prog"] State.init
    ['a', 'b'] rfl

/-- C6: whatever the call of `printf` returns (the byte count on success, a
negative value on failure, any `r` at all), `main` returns the status `S` of
the foreign routine: the value `r` reaches neither the status nor any later
call, it is only the result of the one write of the run. -/
theorem main_ignores_printf_result (E : Env) (argc : Int) (argv : Argv)
    (s : State) (S : Int) (out : List Char) (r : Int)
    (h : E.rust_main argc argv = Foreign.returned S out)
    (hr : E.printf_ret (s.stdout ++ out) "Done!\n" = r) :
    (main argc argv E s).status = some S ∧
    events (main argc argv E s) s =
      [Event.call argc argv, Event.write notice r] ∧
    ∀ (E0 : Env), E0.rust_main = E.rust_main →
      (main argc argv E0 s).status = (main argc argv E s).status := by
  have hst : (main argc argv E s).status = some S := by
    simp [main_of_returned E argc argv s S out h, Result.status]
  refine ⟨hst, ?_, ?_⟩
  · rw [events_of_returned E argc argv s S out h, hr]
  · intro E0 h0
    have h0r : E0.rust_main argc argv = Foreign.returned S out := by rw [h0, h]
    rw [hst]
    simp [main_of_returned E0 argc argv s S out h0r, Result.status]

/-- C6 with a foreign routine that returns `5` and a `printf` that fails with
`-1`: the status is `5`. -/
theorem main_ignores_printf_result_witness :
    (main 1 ["prog"] (envReturning 5 [] (-1)) State.init).status = some 5 ∧
    events (main 1 ["prog"] (envReturning 5 [] (-1)) State.init) State.init =
      [Event.call 1 ["prog"], Event.write notice (-1)] ∧
    ∀ (E0 : Env), E0.rust_main = (envReturning 5 [] (-1)).rust_main →
      (main 1 ["prog"] E0 State.init).status
        = (main 1 ["prog"] (envReturning 5 [] (-1)) State.init).status :=
  main_ignores_printf_result (envReturning 5 [] (-1)) 1 ["prog"] State.init 5 []
    (-1) rfl rfl

/-- C7: every run of `main` calls `rust_main` exactly once, whatever the
arguments and whatever the foreign routine does: the call is the first event
of the run, no later event is a call, and a write of the notice can only come
after it. -/
theorem main_calls_foreign_routine_once (E : Env) (argc : Int) (argv : Argv)
    (s : State) :
    (calls (events (main argc argv E s) s)).length = 1 ∧
    ∃ rest : List Event,
      events (main argc argv E s) s = Event.call argc argv :: rest ∧
      calls rest = [] ∧
      (rest = [] ∨ ∃ r : Int, rest = [Event.write notice r]) := by
  refine ⟨by rw [calls_of_main E argc argv s]; rfl, ?_⟩
  cases h : E.rust_main argc argv with
  | returned status out =>
      exact ⟨_, events_of_returned E argc argv s status out h, rfl,
        Or.inr ⟨_, rfl⟩⟩
  | stopped out =>
      exact ⟨[], events_of_stopped E argc argv s out h, rfl, Or.inl rfl⟩

/-- C8: for every `argc` (zero and negative values included) and every `argv`,
with no assumption relating the two, `main` hands exactly the pair it received
to `rust_main`; if the routine returns `S`, `main` writes the notice once and
returns `S`; and two vectors on which the foreign routine behaves alike give
the same status and the same output, since `main` does not look at the
tokens. -/
theorem main_needs_no_precondition (E : Env) (argc : Int) (argv : Argv)
    (s : State) :
    calls (events (main argc argv E s) s) = [(argc, argv)] ∧
    (∀ (S : Int) (out : List Char),
      E.rust_main argc argv = Foreign.returned S out →
        (main argc argv E s).status = some S ∧
        writes (events (main argc argv E s) s) = [notice]) ∧
    ∀ argv0 : Argv, E.rust_main argc argv0 = E.rust_main argc argv →
      (main argc argv0 E s).status = (main argc argv E s).status ∧
      output (main argc argv0 E s) s = output (main argc argv E s) s := by
  refine ⟨calls_of_main E argc argv s, ?_, ?_⟩
  · intro S out h
    constructor
    · simp [main_of_returned E argc argv s S out h, Result.status]
    · simp [events_of_returned E argc argv s S out h, writes]
  · intro argv0 h0
    cases h : E.rust_main argc argv with
    | returned status out =>
        have h1 : E.rust_main argc argv0 = Foreign.returned status out := by rw [h0, h]
        simp [main_of_returned E argc argv s status out h,
          main_of_returned E argc argv0 s status out h1, Result.status, output,
          Result.final]
    | stopped out =>
        have h1 : E.rust_main argc argv0 = Foreign.stopped out := by rw [h0, h]
        simp [main_of_stopped E argc argv s out h,
          main_of_stopped E argc argv0 s out h1, Result.status, output,
          Result.final]

/-- C8 at `argc = -1` with an empty vector and a foreign routine that returns
`-3`: the pair `(-1, [])` is forwarded, the notice is written once and the
status is `-3`. -/
theorem main_needs_no_precondition_witness :
    calls (events (main (-1) [] (envReturning (-3) [] 6) State.init) State.init)
      = [(-1, [])] ∧
    (main (-1) [] (envReturning (-3) [] 6) State.init).status = some (-3) ∧
    writes (events (main (-1) [] (envReturning (-3) [] 6) State.init) State.init)
      = [notice] :=
  ⟨(main_needs_no_precondition (envReturning (-3) [] 6) (-1) [] State.init).1,
   (main_needs_no_precondition (envReturning (-3) [] 6) (-1) [] State.init).2.1
      (-3) [] rfl⟩

end RustStd
